import Mathlib

/-!
Shallow embedding of the sales-aggregation and status-lifecycle core of the
Pedro-admin-template repository (Remix/Supabase dashboard).

Sources embedded:
- `src/app/routes/dashboard.tsx` — the sales dashboard `action` (delete_venda /
  update_status form handler), and its `loader` (total count, today count via
  `gte(data_venda, hoje)`, month revenue via `gte(data_venda, inicioMes)`,
  average ticket, and the `statusCount` reducer).
- `src/app/routes/formatCurrency.tsx` — the pharmacy dashboard `action`
  (toggleStatus) and `loader` (today revenue via
  `gte(hoje + "T00:00:00") ∧ lte(hoje + "T23:59:59")`, unguarded
  `reduce((acc, v) => acc + v.valor_total, 0) || 0`).
- `src/unnamed/part_000` — the hardened variant of the same loader, whose
  reducer guards each amount: `acc + (venda.valor_total || 0)`.

Modelling conventions:
- The system has a single timeline (the repository mixes `toISOString` (UTC)
  dates with local-time `Date` construction; one reporting timezone is
  modelled). Instants are structured date-times compared lexicographically,
  which agrees with ISO-8601 string comparison and with SQL timestamp
  comparison used by the Supabase `gte`/`lte` filters.
- JS numbers are modelled as `ℚ`. A sale's `valor_total` is `Option ℚ`:
  `none` models an absent (`undefined`) optional field. JS `acc + undefined`
  is `NaN` and `NaN` propagates through the sum; `none` plays the role of
  `NaN` in `jsAdd`. The trailing `|| 0` maps `NaN` (and `0`) to `0`, i.e.
  `Option.getD 0`.
- Database writes always succeed (the persistence collaborator is out of
  scope); the 500-on-database-error branches are therefore not modelled.
-/

set_option autoImplicit false

namespace Vendas

/-- A date-time instant: calendar fields plus milliseconds. Mirrors the
ISO-8601 strings (`data_venda`) the loaders compare against. -/
structure DateTime where
  year : Nat
  month : Nat
  day : Nat
  hour : Nat
  minute : Nat
  second : Nat
  millis : Nat
deriving DecidableEq, Repr

/-- Lexicographic comparison of equal-length numeric sequences; on the field
sequences of two instants this is exactly ISO-8601 string comparison (and SQL
timestamp comparison) for in-range fields. -/
def lexLe : List Nat → List Nat → Bool
  | [], _ => true
  | _ :: _, [] => false
  | x :: xs, y :: ys => if x ≠ y then decide (x < y) else lexLe xs ys

/-- The field sequence of an instant, most significant first — the digit
groups of its ISO-8601 rendering. -/
def DateTime.fields (a : DateTime) : List Nat :=
  [a.year, a.month, a.day, a.hour, a.minute, a.second, a.millis]

/-- Chronological comparison of instants, embedding the Supabase `gte`/`lte`
filter comparisons on `data_venda`. -/
def DateTime.le (a b : DateTime) : Bool :=
  lexLe a.fields b.fields

/-- Two instants on the same calendar day. -/
def sameDate (a b : DateTime) : Bool :=
  a.year == b.year && a.month == b.month && a.day == b.day

/-- One row of the `vendas` table, as consumed by the loaders
(dashboard.tsx `type Venda`). `valor_total` is optional in the hardened
variant's types (part_000: `valor_total?: number`); `none` is an absent
amount. -/
structure Venda where
  id : Nat
  data_venda : DateTime
  valor_total : Option ℚ
  status : String
deriving DecidableEq, Repr

/-- One row of the `itens_venda` table (only the cascading-delete key is
relevant to the action handler). -/
structure ItemVenda where
  id : Nat
  venda_id : Nat
deriving DecidableEq, Repr

/-- The state the sales action handler mutates: the `vendas` and
`itens_venda` tables. -/
structure DB where
  vendas : List Venda
  itens_venda : List ItemVenda
deriving DecidableEq, Repr

/-- `hoje + "T00:00:00"` / the cast of the bare date string `hoje`:
midnight of `now`'s day (dashboard.tsx line 112, formatCurrency.tsx 116). -/
def dayStart (now : DateTime) : DateTime :=
  ⟨now.year, now.month, now.day, 0, 0, 0, 0⟩

/-- `hoje + "T23:59:59"`: second 59 of `now`'s day with zero milliseconds
(formatCurrency.tsx lines 122-123, 128-129). -/
def dayEnd (now : DateTime) : DateTime :=
  ⟨now.year, now.month, now.day, 23, 59, 59, 0⟩

/-- `new Date(getFullYear(), getMonth(), 1).toISOString()`: midnight of the
first day of `now`'s month (dashboard.tsx line 113). -/
def monthStart (now : DateTime) : DateTime :=
  ⟨now.year, now.month, 1, 0, 0, 0, 0⟩

/-- dashboard.tsx "Vendas de hoje" filter (lines 121-124):
`gte("data_venda", hoje)` — lower bound only, no upper bound. -/
def vendasHojePred (now ts : DateTime) : Bool :=
  DateTime.le (dayStart now) ts

/-- formatCurrency.tsx today filter (lines 119-129):
`gte(hoje+"T00:00:00")` and `lte(hoje+"T23:59:59")`. -/
def receitaHojePred (now ts : DateTime) : Bool :=
  DateTime.le (dayStart now) ts && DateTime.le ts (dayEnd now)

/-- dashboard.tsx month filter (lines 127-130): `gte("data_venda", inicioMes)`
— lower bound only. -/
def vendasMesPred (now ts : DateTime) : Bool :=
  DateTime.le (monthStart now) ts

/-- JS `+` on possibly-absent numbers: adding `undefined` yields `NaN`
(`none`), and `NaN` propagates. -/
def jsAdd : Option ℚ → Option ℚ → Option ℚ
  | some a, some b => some (a + b)
  | _, _ => none

/-- JS `x || 0`: `NaN` (`none`) and `0` both collapse to `0`. -/
def jsOrZero : Option ℚ → ℚ
  | some a => a
  | none => 0

/-- The unguarded revenue reducer `reduce((acc, v) => acc + v.valor_total, 0)`
(formatCurrency.tsx line 131, dashboard.tsx line 132). -/
def jsSum (l : List Venda) : Option ℚ :=
  l.foldl (fun acc v => jsAdd acc v.valor_total) (some 0)

/-- dashboard.tsx line 132: `vendasMes.reduce((sum, v) => sum + v.valor_total, 0) || 0`
over the month-filtered records. -/
def valorTotalMes (records : List Venda) (now : DateTime) : ℚ :=
  jsOrZero (jsSum (records.filter fun v => vendasMesPred now v.data_venda))

/-- formatCurrency.tsx line 131: `receitaHojeData.reduce((acc, v) => acc + v.valor_total, 0) || 0`
over the today-filtered records. -/
def totalReceitaHoje (records : List Venda) (now : DateTime) : ℚ :=
  jsOrZero (jsSum (records.filter fun v => receitaHojePred now v.data_venda))

/-- part_000 line 544: `reduce((acc, venda) => acc + (venda.valor_total || 0), 0) || 0`
— each absent amount individually collapses to `0` before being added. -/
def totalReceitaHojeSafe (records : List Venda) (now : DateTime) : ℚ :=
  (records.filter fun v => receitaHojePred now v.data_venda).foldl
    (fun acc v => acc + jsOrZero v.valor_total) 0

/-- The derived statistics block (dashboard.tsx `type VendasStats` plus the
today-revenue figure of the sibling loader). -/
structure PeriodStats where
  totalCount : Nat
  todayCount : Nat
  todayRevenue : ℚ
  monthRevenue : ℚ
  averageTicket : ℚ
deriving DecidableEq, Repr

/-- The SalesAggregator: each field is the corresponding loader computation.
`totalCount` = count of all records (dashboard.tsx 116-118); `todayCount` =
count with `data_venda >= hoje` (dashboard.tsx 121-124); `todayRevenue` =
formatCurrency.tsx 119-131; `monthRevenue` = dashboard.tsx 127-132;
`averageTicket` = `totalVendas > 0 ? valorTotalMes / totalVendas : 0`
(dashboard.tsx 133). -/
def computeStats (records : List Venda) (now : DateTime) : PeriodStats :=
  let totalVendas := records.length
  let valorMes := valorTotalMes records now
  { totalCount := totalVendas
    todayCount := (records.filter fun v => vendasHojePred now v.data_venda).length
    todayRevenue := totalReceitaHoje records now
    monthRevenue := valorMes
    averageTicket := if 0 < totalVendas then valorMes / (totalVendas : ℚ) else 0 }

/-- One step of the dashboard.tsx 155-158 reducer:
`acc[venda.status] = (acc[venda.status] || 0) + 1` on a JS object, i.e.
increment the existing key in place or append a new key at the end. -/
def bump (acc : List (String × Nat)) (s : String) : List (String × Nat) :=
  match acc with
  | [] => [(s, 1)]
  | (k, n) :: rest => if k = s then (k, n + 1) :: rest else (k, n) :: bump rest s

/-- dashboard.tsx 155-158: fold the records' statuses into the status-count
mapping (the spec's `computeStatusCounts`). -/
def statusCount (records : List Venda) : List (String × Nat) :=
  records.foldl (fun acc v => bump acc v.status) []

/-- The four status literals offered by the dashboard UI selector
(dashboard.tsx 322-325): pending, confirmed, delivered, cancelled. -/
def validStatuses : List String :=
  ["pendente", "confirmada", "entregue", "cancelada"]

/-- The status value the `update_status` case persists (dashboard.tsx 89-94):
exactly the requested form value; the current status is never consulted and
no validation is performed. -/
def applyTransition (_current requested : String) : String :=
  requested

/-- Outcome of the sales dashboard action: the JSON success message, or a
thrown `Response(message, { status })`. -/
inductive ActionResponse where
  | ok (message : String)
  | err (status : Nat) (message : String)
deriving DecidableEq, Repr

/-- dashboard.tsx `action` (lines 70-106): switch on `_action`.
`delete_venda` deletes the sale's line items then the sale;
`update_status` persists the submitted status for the sale;
anything else throws a 400 "Ação não reconhecida" and touches nothing. -/
def vendasAction (db : DB) (acao : Option String) (id : Nat) (status : String) :
    DB × ActionResponse :=
  match acao with
  | some "delete_venda" =>
      ({ vendas := db.vendas.filter fun v => v.id != id
         itens_venda := db.itens_venda.filter fun it => it.venda_id != id },
       .ok "Operação realizada com sucesso")
  | some "update_status" =>
      ({ db with vendas := db.vendas.map fun v =>
           if v.id = id then { v with status := status } else v },
       .ok "Operação realizada com sucesso")
  | _ => (db, .err 400 "Ação não reconhecida")

/-- The toggleStatus computation (formatCurrency.tsx 96:
`status === "true" ? false : true`; part_000 494:
`status?.toString() !== "true"`): the new boolean is `true` exactly when the
submitted string is not `"true"`. -/
def toggleStatus (status : String) : Bool :=
  status != "true"

/-- JS `Boolean.prototype.toString`, used when the client round-trips the
current status back into the form (`status.toString()`). -/
def boolToString (b : Bool) : String :=
  if b then "true" else "false"

/-! ## General lemmas about the embedded operations -/

theorem lexLe_trans : ∀ {xs ys zs : List Nat},
    lexLe xs ys = true → lexLe ys zs = true → lexLe xs zs = true := by
  intro xs
  induction xs with
  | nil => intro ys zs h1 h2; cases zs <;> simp [lexLe]
  | cons x xs ih =>
    intro ys zs h1 h2
    cases ys with
    | nil => simp [lexLe] at h1
    | cons y ys =>
      cases zs with
      | nil => simp [lexLe] at h2
      | cons z zs =>
        simp only [lexLe] at h1 h2 ⊢
        split_ifs at h1 h2 ⊢ <;>
          first
            | rfl
            | (exact ih h1 h2)
            | (simp only [decide_eq_true_eq] at *; omega)

theorem dayStart_le_of_sameDate (now ts : DateTime) (h : sameDate now ts = true) :
    DateTime.le (dayStart now) ts = true := by
  simp only [sameDate, Bool.and_eq_true, beq_iff_eq] at h
  obtain ⟨⟨hy, hm⟩, hd⟩ := h
  simp only [DateTime.le, DateTime.fields, dayStart, lexLe, hy, hm, hd]
  split_ifs <;> simp only [decide_eq_true_eq] <;> omega

/-! ## Claim C2: the boundaries of the "today" window -/

/-- Counterexample to claim C2, at reference instant 2026-10-12 12:00:00.000.
First conjunct: a record timestamped 2026-10-13 00:00:00.000 — midnight of
the following day — IS counted in `todayCount` (the dashboard.tsx filter
`data_venda >= hoje` has no upper bound), where the claim requires it not to
be counted. Second conjunct: a record of amount 100 timestamped
2026-10-12 23:59:59.999 contributes nothing to `todayRevenue` (the
formatCurrency.tsx window ends at `23:59:59` sharp, i.e. 23:59:59.000),
where the claim requires its amount to be included. -/
theorem today_window_boundary_cex :
    (computeStats [⟨1, ⟨2026, 10, 13, 0, 0, 0, 0⟩, some 50, "pendente"⟩]
        ⟨2026, 10, 12, 12, 0, 0, 0⟩).todayCount = 1 ∧
    (computeStats [⟨1, ⟨2026, 10, 12, 23, 59, 59, 999⟩, some 100, "pendente"⟩]
        ⟨2026, 10, 12, 12, 0, 0, 0⟩).todayRevenue = 0 :=
  ⟨by decide, by decide⟩

/-- Claim C2 (amended): for a reference instant `now` and a record instant
`ts` on the same calendar day: (1) the record is counted by the
`todayCount` filter — including one timestamped 23:59:59.999; (2) that
filter has no upper boundary at all: every instant at or after a same-day
instant is also counted, so midnight of the next day is counted too; (3) the
`todayRevenue` window of formatCurrency.tsx ends at 23:59:59.000 — an
instant at 23:59:59 with a positive millisecond part is excluded — while
(4) any same-day instant with in-range fields and a zero millisecond part is
included. -/
theorem today_window_amended (now ts : DateTime) (hsame : sameDate now ts = true) :
    vendasHojePred now ts = true ∧
    (∀ later : DateTime, DateTime.le ts later = true → vendasHojePred now later = true) ∧
    (ts.hour = 23 → ts.minute = 59 → ts.second = 59 → 0 < ts.millis →
      receitaHojePred now ts = false) ∧
    (ts.hour ≤ 23 → ts.minute ≤ 59 → ts.second ≤ 59 → ts.millis = 0 →
      receitaHojePred now ts = true) := by
  have h1 : DateTime.le (dayStart now) ts = true := dayStart_le_of_sameDate now ts hsame
  simp only [sameDate, Bool.and_eq_true, beq_iff_eq] at hsame
  obtain ⟨⟨hy, hm⟩, hd⟩ := hsame
  refine ⟨h1, ?_, ?_, ?_⟩
  · intro later hlat
    exact lexLe_trans h1 hlat
  · intro hh hmin hsec hms
    have hEnd : DateTime.le ts (dayEnd now) = false := by
      simp only [DateTime.le, DateTime.fields, dayEnd, lexLe, hy, hm, hd, hh, hmin, hsec]
      split_ifs <;>
        (try simp only [decide_eq_true_eq, decide_eq_false_iff_not]) <;> omega
    simp [receitaHojePred, hEnd]
  · intro hh hmin hsec hms
    have hEnd : DateTime.le ts (dayEnd now) = true := by
      simp only [DateTime.le, DateTime.fields, dayEnd, lexLe, hy, hm, hd, hms]
      split_ifs <;> (try simp only [decide_eq_true_eq]) <;> omega
    simp [receitaHojePred, h1, hEnd]

/-- Witness for the amended C2 at the concrete boundary instant
2026-10-12 23:59:59.999. -/
theorem today_window_amended_witness :
    sameDate ⟨2026, 10, 12, 12, 0, 0, 0⟩ ⟨2026, 10, 12, 23, 59, 59, 999⟩ = true ∧
    receitaHojePred ⟨2026, 10, 12, 12, 0, 0, 0⟩ ⟨2026, 10, 12, 23, 59, 59, 999⟩ = false :=
  ⟨by decide, (today_window_amended _ _ (by decide)).2.2.1 rfl rfl rfl (by decide)⟩

theorem jsAdd_none_right (a : Option ℚ) : jsAdd a none = none := by
  cases a <;> rfl

theorem jsAdd_none_left (a : Option ℚ) : jsAdd none a = none := by
  cases a <;> rfl

theorem jsOrZero_eq_getD (a : Option ℚ) : jsOrZero a = a.getD 0 := by
  cases a <;> rfl

theorem jsSum_go_some (l : List Venda) (a : ℚ)
    (h : ∀ v ∈ l, (v.valor_total).isSome = true) :
    l.foldl (fun acc v => jsAdd acc v.valor_total) (some a)
      = some (a + (l.map fun v => (v.valor_total).getD 0).sum) := by
  induction l generalizing a with
  | nil => simp
  | cons v t ih =>
    obtain ⟨q, hq⟩ := Option.isSome_iff_exists.mp (h v (List.mem_cons_self v t))
    have ht : ∀ w ∈ t, (w.valor_total).isSome = true :=
      fun w hw => h w (List.mem_cons_of_mem v hw)
    rw [List.foldl_cons]
    simp only [List.map_cons, List.sum_cons, hq, Option.getD_some]
    have hstep : jsAdd (some a) (some q) = some (a + q) := rfl
    rw [hstep, ih (a + q) ht, add_assoc]

theorem jsSum_eq_sum (l : List Venda) (h : ∀ v ∈ l, (v.valor_total).isSome = true) :
    jsSum l = some ((l.map fun v => (v.valor_total).getD 0).sum) := by
  simpa using jsSum_go_some l 0 h

theorem jsSum_go_none (l : List Venda) :
    l.foldl (fun acc v => jsAdd acc v.valor_total) none = none := by
  induction l with
  | nil => rfl
  | cons v t ih => simpa only [List.foldl_cons, jsAdd_none_left] using ih

theorem jsSum_go_absent (l : List Venda) (a : Option ℚ)
    (h : ∃ v ∈ l, v.valor_total = none) :
    l.foldl (fun acc v => jsAdd acc v.valor_total) a = none := by
  induction l generalizing a with
  | nil => simp at h
  | cons v t ih =>
    simp only [List.foldl_cons]
    rcases h with ⟨w, hw, hnone⟩
    rcases List.mem_cons.mp hw with hwv | hwt
    · subst hwv
      rw [hnone, jsAdd_none_right]
      exact jsSum_go_none t
    · exact ih _ ⟨w, hwt, hnone⟩

theorem jsSum_of_absent (l : List Venda) (h : ∃ v ∈ l, v.valor_total = none) :
    jsSum l = none :=
  jsSum_go_absent l (some 0) h

theorem foldl_add_getD (l : List Venda) (a : ℚ) :
    l.foldl (fun acc v => acc + jsOrZero v.valor_total) a
      = a + (l.map fun v => (v.valor_total).getD 0).sum := by
  induction l generalizing a with
  | nil => simp
  | cons v t ih =>
    rw [List.foldl_cons, ih, jsOrZero_eq_getD, List.map_cons, List.sum_cons,
      add_assoc]

theorem sum_map_filter_le (p q : Venda → Bool) :
    ∀ l : List Venda,
      (∀ v ∈ l, p v = true → q v = true) →
      (∀ v ∈ l, 0 ≤ (v.valor_total).getD 0) →
      ((l.filter p).map fun v => (v.valor_total).getD 0).sum
        ≤ ((l.filter q).map fun v => (v.valor_total).getD 0).sum := by
  intro l
  induction l with
  | nil => intro _ _; simp
  | cons v t ih =>
    intro himp h0
    have hvt := ih (fun w hw hp => himp w (List.mem_cons_of_mem v hw) hp)
      (fun w hw => h0 w (List.mem_cons_of_mem v hw))
    cases hp : p v with
    | true =>
      have hq : q v = true := himp v (List.mem_cons_self v t) hp
      simp only [List.filter_cons, hp, hq, if_true, List.map_cons, List.sum_cons]
      exact add_le_add_left hvt _
    | false =>
      cases hq : q v with
      | true =>
        simp only [List.filter_cons, hp, hq, if_true, Bool.false_eq_true,
          if_false, List.map_cons, List.sum_cons]
        have h0v := h0 v (List.mem_cons_self v t)
        calc ((t.filter p).map fun v => (v.valor_total).getD 0).sum
            ≤ ((t.filter q).map fun v => (v.valor_total).getD 0).sum := hvt
          _ ≤ (v.valor_total).getD 0
                + ((t.filter q).map fun v => (v.valor_total).getD 0).sum :=
              le_add_of_nonneg_left h0v
      | false =>
        simpa only [List.filter_cons, hp, hq, Bool.false_eq_true, if_false]
          using hvt

/-! ## Claim C3: the average ticket -/

/-- Claim C3: `averageTicket` is the month revenue divided by the total count
when the total count is positive, and exactly `0` otherwise; in particular
ten records of amount 200 inside the month (total count 10, month revenue
2000) yield an average ticket of 200. -/
theorem averageTicket_spec (records : List Venda) (now : DateTime) :
    ((computeStats records now).averageTicket =
      if 0 < (computeStats records now).totalCount
      then (computeStats records now).monthRevenue
            / ((computeStats records now).totalCount : ℚ)
      else 0) ∧
    (computeStats
        (List.replicate 10 ⟨1, ⟨2026, 10, 5, 10, 0, 0, 0⟩, some 200, "confirmada"⟩)
        ⟨2026, 10, 12, 12, 0, 0, 0⟩).averageTicket = 200 := by
  constructor
  · rfl
  · norm_num [computeStats, valorTotalMes, totalReceitaHoje, jsSum, jsOrZero,
      jsAdd, vendasMesPred, receitaHojePred, vendasHojePred, monthStart,
      dayStart, dayEnd, DateTime.le, DateTime.fields, lexLe, List.replicate,
      List.filter_cons, List.foldl_cons, List.foldl_nil]

/-! ## Claim C7: today's revenue never exceeds the month's revenue -/

/-- Claim C7: for a reference instant on a genuine calendar day (day ≥ 1) and
records whose amounts are all present and non-negative, the `todayRevenue`
computed by `computeStats` is at most its `monthRevenue`: the today window
`[00:00:00.000, 23:59:59.000]` lies inside the month window
`[first-of-month 00:00:00.000, ∞)`. -/
theorem todayRevenue_le_monthRevenue (records : List Venda) (now : DateTime)
    (hday : 1 ≤ now.day)
    (hamt : ∀ v ∈ records, (v.valor_total).isSome = true ∧ 0 ≤ (v.valor_total).getD 0) :
    (computeStats records now).todayRevenue ≤ (computeStats records now).monthRevenue := by
  have himp : ∀ v : Venda, receitaHojePred now v.data_venda = true →
      vendasMesPred now v.data_venda = true := by
    intro v h
    have h1 : DateTime.le (dayStart now) v.data_venda = true := by
      simp only [receitaHojePred, Bool.and_eq_true] at h
      exact h.1
    have h0 : DateTime.le (monthStart now) (dayStart now) = true := by
      simp only [DateTime.le, DateTime.fields, monthStart, dayStart, lexLe]
      split_ifs <;> (try simp only [decide_eq_true_eq]) <;> omega
    exact lexLe_trans h0 h1
  have hT := jsSum_eq_sum (records.filter fun v => receitaHojePred now v.data_venda)
    (fun v hv => (hamt v (List.mem_of_mem_filter hv)).1)
  have hM := jsSum_eq_sum (records.filter fun v => vendasMesPred now v.data_venda)
    (fun v hv => (hamt v (List.mem_of_mem_filter hv)).1)
  show totalReceitaHoje records now ≤ valorTotalMes records now
  simp only [totalReceitaHoje, valorTotalMes, hT, hM, jsOrZero]
  exact sum_map_filter_le _ _ records (fun v _ h => himp v h) (fun v hv => (hamt v hv).2)

/-- Witness for C7: one sale of amount 100 on 2026-10-12. -/
theorem todayRevenue_le_monthRevenue_witness :
    1 ≤ (⟨2026, 10, 12, 12, 0, 0, 0⟩ : DateTime).day ∧
    (computeStats [⟨1, ⟨2026, 10, 12, 10, 0, 0, 0⟩, some 100, "pendente"⟩]
        ⟨2026, 10, 12, 12, 0, 0, 0⟩).todayRevenue
      ≤ (computeStats [⟨1, ⟨2026, 10, 12, 10, 0, 0, 0⟩, some 100, "pendente"⟩]
        ⟨2026, 10, 12, 12, 0, 0, 0⟩).monthRevenue :=
  ⟨by decide,
    todayRevenue_le_monthRevenue _ _ (by decide)
      (by
        intro v hv
        simp only [List.mem_singleton] at hv
        subst hv
        exact ⟨rfl, by norm_num⟩)⟩

/-! ## Claim C8: absent amounts and totality -/

/-- Counterexample to claim C8: with one well-formed sale of amount 100 and
one sale with an absent amount, both inside the today window, the
formatCurrency.tsx reducer embedded in `computeStats` yields a today revenue
of 0 — the absent amount did not merely "contribute zero": the JS sum became
`NaN` and the trailing `|| 0` discarded the well-formed 100 as well. The
hardened part_000 reducer on the same input yields 100, the value the claim
requires. -/
theorem absent_amount_collapses_sum_cex :
    (computeStats
        [⟨1, ⟨2026, 10, 12, 9, 0, 0, 0⟩, some 100, "pendente"⟩,
         ⟨2, ⟨2026, 10, 12, 10, 0, 0, 0⟩, none, "pendente"⟩]
        ⟨2026, 10, 12, 12, 0, 0, 0⟩).todayRevenue = 0 ∧
    totalReceitaHojeSafe
        [⟨1, ⟨2026, 10, 12, 9, 0, 0, 0⟩, some 100, "pendente"⟩,
         ⟨2, ⟨2026, 10, 12, 10, 0, 0, 0⟩, none, "pendente"⟩]
        ⟨2026, 10, 12, 12, 0, 0, 0⟩ = 100 := by
  constructor <;>
    norm_num [computeStats, totalReceitaHoje, totalReceitaHojeSafe, jsSum,
      jsOrZero, jsAdd, receitaHojePred, vendasHojePred, vendasMesPred,
      monthStart, dayStart, dayEnd, DateTime.le, DateTime.fields, lexLe,
      List.filter_cons, List.foldl_cons, List.foldl_nil]

/-- Claim C8 (amended): aggregation is total — `computeStats` always returns
a complete `PeriodStats`, no error is raised — and in the hardened part_000
reducer (`acc + (valor_total || 0)`) each absent amount contributes exactly
zero. But in the formatCurrency.tsx reducer used by `computeStats`
(`acc + valor_total` with a trailing `|| 0`), a single absent amount inside
the window collapses the entire today revenue to `0`, discarding the
well-formed amounts too. The two reducers agree whenever every amount is
present. -/
theorem revenue_reducers_amended (records : List Venda) (now : DateTime) :
    (totalReceitaHojeSafe records now
      = ((records.filter fun v => receitaHojePred now v.data_venda).map
          fun v => (v.valor_total).getD 0).sum) ∧
    ((∃ v ∈ records.filter (fun v => receitaHojePred now v.data_venda),
        v.valor_total = none) →
      (computeStats records now).todayRevenue = 0) ∧
    ((∀ v ∈ records, (v.valor_total).isSome = true) →
      (computeStats records now).todayRevenue = totalReceitaHojeSafe records now) := by
  refine ⟨?_, ?_, ?_⟩
  · simpa [totalReceitaHojeSafe] using
      foldl_add_getD (records.filter fun v => receitaHojePred now v.data_venda) 0
  · intro h
    show totalReceitaHoje records now = 0
    rw [totalReceitaHoje, jsSum_of_absent _ h]
    rfl
  · intro h
    show totalReceitaHoje records now = totalReceitaHojeSafe records now
    rw [totalReceitaHoje,
      jsSum_eq_sum _ (fun v hv => h v (List.mem_of_mem_filter hv))]
    simpa [totalReceitaHojeSafe, jsOrZero] using
      (foldl_add_getD (records.filter fun v => receitaHojePred now v.data_venda) 0).symm

/-- Witness for the amended C8: the absent-amount branch at a concrete
two-record list, and the all-present branch at a concrete singleton. -/
theorem revenue_reducers_amended_witness :
    (∃ v ∈ [Venda.mk 1 ⟨2026, 10, 12, 9, 0, 0, 0⟩ (some 100) "pendente",
            Venda.mk 2 ⟨2026, 10, 12, 10, 0, 0, 0⟩ none "pendente"].filter
        (fun v => receitaHojePred ⟨2026, 10, 12, 12, 0, 0, 0⟩ v.data_venda),
        v.valor_total = none) ∧
    (computeStats
        [Venda.mk 1 ⟨2026, 10, 12, 9, 0, 0, 0⟩ (some 100) "pendente",
         Venda.mk 2 ⟨2026, 10, 12, 10, 0, 0, 0⟩ none "pendente"]
        ⟨2026, 10, 12, 12, 0, 0, 0⟩).todayRevenue = 0 ∧
    (computeStats [Venda.mk 1 ⟨2026, 10, 12, 9, 0, 0, 0⟩ (some 100) "pendente"]
        ⟨2026, 10, 12, 12, 0, 0, 0⟩).todayRevenue
      = totalReceitaHojeSafe
          [Venda.mk 1 ⟨2026, 10, 12, 9, 0, 0, 0⟩ (some 100) "pendente"]
          ⟨2026, 10, 12, 12, 0, 0, 0⟩ :=
  ⟨by decide,
    (revenue_reducers_amended _ _).2.1 (by decide),
    (revenue_reducers_amended _ _).2.2 (by decide)⟩

/-! ## Claim C5: empty input -/

/-- Claim C5: on the empty records list, `computeStats` returns all-zero
statistics and `statusCount` returns the empty mapping. -/
theorem computeStats_empty (now : DateTime) :
    computeStats [] now = ⟨0, 0, 0, 0, 0⟩ ∧ statusCount [] = [] :=
  ⟨rfl, rfl⟩

/-! ## Claim C9: the status toggle -/

/-- Claim C9: `toggleStatus` maps the string `"true"` to `false` and every
other submitted string to `true`, and round-tripping a boolean through the
form encoding and the toggle twice restores the original boolean. -/
theorem toggleStatus_involutive :
    toggleStatus "true" = false ∧
    (∀ s : String, s ≠ "true" → toggleStatus s = true) ∧
    (∀ b : Bool, toggleStatus (boolToString (toggleStatus (boolToString b))) = b) := by
  refine ⟨rfl, ?_, ?_⟩
  · intro s hs
    simp [toggleStatus, bne_iff_ne, hs]
  · intro b
    cases b <;> rfl

/-- Witness for C9 at the concrete submitted value `"false"`. -/
theorem toggleStatus_involutive_witness :
    ("false" ≠ "true") ∧ toggleStatus "false" = true :=
  ⟨by decide, toggleStatus_involutive.2.1 "false" (by decide)⟩

/-! ## Claim C10: unrecognised actions -/

/-- Claim C10: a form submission whose `_action` is neither `"delete_venda"`
nor `"update_status"` (including a missing `_action`) is rejected with a 400
"Ação não reconhecida" response and the database state is unchanged. -/
theorem unknown_action_rejected (db : DB) (acao : Option String) (id : Nat)
    (status : String)
    (h1 : acao ≠ some "delete_venda") (h2 : acao ≠ some "update_status") :
    vendasAction db acao id status = (db, ActionResponse.err 400 "Ação não reconhecida") := by
  unfold vendasAction
  split <;> simp_all

/-- Witness for C10: the concrete unrecognised action `"toggle"`. -/
theorem unknown_action_rejected_witness :
    (some "toggle" ≠ some "delete_venda") ∧ (some "toggle" ≠ some "update_status") ∧
    vendasAction ⟨[], []⟩ (some "toggle") 1 "pendente"
      = (⟨[], []⟩, ActionResponse.err 400 "Ação não reconhecida") :=
  ⟨by decide, by decide,
    unknown_action_rejected ⟨[], []⟩ (some "toggle") 1 "pendente" (by decide) (by decide)⟩

/-! ## Claim C1: requested values outside the enumeration -/

/-- Counterexample to claim C1: the `update_status` action performs no
validation. Requesting the out-of-enumeration status `"bogus"` on a sale in
state `"entregue"` (delivered) does not fail with any `InvalidStatus`
condition — it succeeds and the persisted status becomes `"bogus"`. -/
theorem updateStatus_accepts_bogus_cex :
    applyTransition "entregue" "bogus" = "bogus" ∧
    vendasAction ⟨[⟨1, ⟨2026, 10, 12, 9, 0, 0, 0⟩, some 100, "entregue"⟩], []⟩
        (some "update_status") 1 "bogus"
      = (⟨[⟨1, ⟨2026, 10, 12, 9, 0, 0, 0⟩, some 100, "bogus"⟩], []⟩,
         ActionResponse.ok "Operação realizada com sucesso") :=
  ⟨rfl, by rfl⟩

/-- Claim C1 (amended): the `update_status` case of the sales action applies
no validation at all — for every requested status string, including values
outside the four-element enumeration, the action succeeds and persists
exactly the requested value; no `InvalidStatus` error path exists in the
code. -/
theorem updateStatus_unvalidated (db : DB) (id : Nat) (requested : String) :
    (vendasAction db (some "update_status") id requested).2
      = ActionResponse.ok "Operação realizada com sucesso" ∧
    (vendasAction db (some "update_status") id requested).1.vendas
      = db.vendas.map (fun v => if v.id = id then { v with status := requested } else v) ∧
    (vendasAction db (some "update_status") id requested).1.itens_venda
      = db.itens_venda :=
  ⟨rfl, rfl, rfl⟩

/-! ## Claim C6: the transition table is unrestricted -/

/-- Claim C6: for every pair of states among the four enumerated ones
(`pendente`/pending, `confirmada`/confirmed, `entregue`/delivered,
`cancelada`/cancelled), the requested transition succeeds and the new status
is exactly the requested state — including self-transitions and transitions
out of `cancelada` or `entregue`; in particular pending→confirmed yields
confirmed and cancelled→cancelled yields cancelled. -/
theorem transition_table_unrestricted (db : DB) (id : Nat)
    (current requested : String)
    (hcur : current ∈ validStatuses) (hreq : requested ∈ validStatuses) :
    applyTransition current requested = requested ∧
    (vendasAction db (some "update_status") id requested).2
      = ActionResponse.ok "Operação realizada com sucesso" ∧
    (vendasAction db (some "update_status") id requested).1.vendas
      = db.vendas.map (fun v => if v.id = id then { v with status := requested } else v) ∧
    applyTransition "pendente" "confirmada" = "confirmada" ∧
    applyTransition "cancelada" "cancelada" = "cancelada" :=
  ⟨rfl, rfl, rfl, rfl, rfl⟩

/-- Witness for C6 at the concrete pair pending→confirmed. -/
theorem transition_table_unrestricted_witness :
    ("pendente" ∈ validStatuses) ∧ ("confirmada" ∈ validStatuses) ∧
    applyTransition "pendente" "confirmada" = "confirmada" :=
  ⟨by decide, by decide,
    (transition_table_unrestricted ⟨[], []⟩ 1 "pendente" "confirmada"
      (by decide) (by decide)).1⟩

/-! ## Claim C4: the status-count mapping -/

theorem bump_lookup (acc : List (String × Nat)) (s t : String) :
    (bump acc s).lookup t =
      if t = s then some ((acc.lookup t).getD 0 + 1) else acc.lookup t := by
  induction acc with
  | nil =>
    by_cases h : t = s <;>
      simp [bump, List.lookup_cons, beq_eq_decide, h]
  | cons p rest ih =>
    obtain ⟨k, n⟩ := p
    by_cases hks : k = s
    · by_cases htk : t = k
      · simp [bump, List.lookup_cons, beq_eq_decide, hks, htk]
      · have hts : ¬ t = s := fun e => htk (e.trans hks.symm)
        simp [bump, List.lookup_cons, beq_eq_decide, hks, htk, hts]
    · by_cases htk : t = k
      · have hts : ¬ t = s := fun e => hks (htk.symm.trans e)
        simp [bump, List.lookup_cons, beq_eq_decide, hks, htk, hts]
      · simp [bump, List.lookup_cons, beq_eq_decide, hks, htk, ih]

theorem bump_sumsnd (acc : List (String × Nat)) (s : String) :
    ((bump acc s).map Prod.snd).sum = (acc.map Prod.snd).sum + 1 := by
  induction acc with
  | nil => simp [bump]
  | cons p rest ih =>
    obtain ⟨k, n⟩ := p
    by_cases h : k = s
    · simp [bump, h]
      omega
    · simp [bump, h, ih]
      omega

theorem bump_keys (acc : List (String × Nat)) (s : String) :
    (bump acc s).map Prod.fst =
      if s ∈ acc.map Prod.fst then acc.map Prod.fst
      else acc.map Prod.fst ++ [s] := by
  induction acc with
  | nil => simp [bump]
  | cons p rest ih =>
    obtain ⟨k, n⟩ := p
    by_cases h : k = s
    · simp [bump, h, List.mem_cons]
    · have hsk : ¬ s = k := fun e => h e.symm
      by_cases hs : s ∈ rest.map Prod.fst <;>
        simp [bump, h, ih, hs, hsk, List.mem_cons]

theorem bump_keys_nodup (acc : List (String × Nat)) (s : String)
    (h : (acc.map Prod.fst).Nodup) : ((bump acc s).map Prod.fst).Nodup := by
  rw [bump_keys]
  split_ifs with hmem
  · exact h
  · simp [List.nodup_append, h, hmem]

theorem statusCount_go_lookup (records : List Venda) :
    ∀ (acc : List (String × Nat)) (s : String),
      (records.foldl (fun acc v => bump acc v.status) acc).lookup s =
        if 0 < records.countP (fun v => v.status == s)
        then some ((acc.lookup s).getD 0 + records.countP (fun v => v.status == s))
        else acc.lookup s := by
  induction records with
  | nil => intro acc s; simp
  | cons v t ih =>
    intro acc s
    rw [List.foldl_cons, ih (bump acc v.status) s, bump_lookup]
    by_cases hv : v.status = s
    · have hsv : s = v.status := hv.symm
      rw [List.countP_cons_of_pos (fun v => v.status == s) t (by simp [hv]),
        if_pos hsv, if_pos (Nat.succ_pos _)]
      split_ifs <;> simp only [Option.getD_some, Option.some.injEq] <;> omega
    · have hsv : ¬ s = v.status := fun e => hv e.symm
      rw [List.countP_cons_of_neg (fun v => v.status == s) t (by simp [hv]),
        if_neg hsv]

theorem statusCount_go_sum (records : List Venda) :
    ∀ acc : List (String × Nat),
      ((records.foldl (fun acc v => bump acc v.status) acc).map Prod.snd).sum
        = (acc.map Prod.snd).sum + records.length := by
  induction records with
  | nil => intro acc; simp
  | cons v t ih =>
    intro acc
    rw [List.foldl_cons, ih (bump acc v.status), bump_sumsnd, List.length_cons]
    omega

theorem statusCount_go_nodup (records : List Venda) :
    ∀ acc : List (String × Nat), (acc.map Prod.fst).Nodup →
      ((records.foldl (fun acc v => bump acc v.status) acc).map Prod.fst).Nodup := by
  induction records with
  | nil => intro acc h; exact h
  | cons v t ih =>
    intro acc h
    rw [List.foldl_cons]
    exact ih _ (bump_keys_nodup acc v.status h)

/-- Claim C4: `statusCount` is a genuine mapping (no duplicate keys) whose
keys are exactly the status literals occurring in the records — looking up a
status yields its occurrence count when that count is positive and `none`
(absent key) when the status does not occur — and the counts over all
buckets sum to the length of the records list. -/
theorem statusCount_spec (records : List Venda) :
    (∀ s : String,
      (statusCount records).lookup s =
        if 0 < records.countP (fun v => v.status == s)
        then some (records.countP (fun v => v.status == s))
        else none) ∧
    ((statusCount records).map Prod.fst).Nodup ∧
    ((statusCount records).map Prod.snd).sum = records.length := by
  refine ⟨fun s => ?_, ?_, ?_⟩
  · simpa [statusCount] using statusCount_go_lookup records [] s
  · exact statusCount_go_nodup records [] (by simp)
  · simpa [statusCount] using statusCount_go_sum records []

end Vendas
